import Mathlib

/-!
Verification development for the doxygen-to-Python stub generator
(`stubgen.py`).  The definitions below are a shallow embedding of the
program's core: the token translator `simple_parse`, the qualified-name
computation of `ParsedElement.qualname`, the bounded identifier-repair loop
`ParsedElement.check`, the `Type` expression node (truthiness, rendering,
resolution against the two registries), function/parameter rendering with
the numbered repair strategies, rendering-based equality/hashing, and the
overload-marking pass of `Class.__init__`.

Machine strings are modelled as Lean `String`/`List Char`; the Python
regular expressions used by `simple_parse` are implemented as explicit
scanners with the exact alternation/backtracking order of the patterns in
the source (`\b` word boundaries, greedy optional groups, greedy
repetition with backtracking over the repetition count).
-/

/-- Python `\w` for the ASCII inputs handled by the program:
letters, digits and underscore. -/
def isWordChar (c : Char) : Bool := c.isAlpha || c.isDigit || c = '_'

/-- Match a literal pattern at the head of the input; on success return the
remaining input. -/
def litMatch : List Char → List Char → Option (List Char)
  | [], rest => some rest
  | _ :: _, [] => none
  | p :: ps, c :: cs => if c = p then litMatch ps cs else none

/-- A `\b` word boundary holds after a match ending in a word character
exactly when the rest is empty or starts with a non-word character. -/
def wordBoundAfter : List Char → Bool
  | [] => true
  | c :: _ => !isWordChar c

/-- Try pattern alternatives in regex backtracking order; each must match
literally and be followed by a word boundary. -/
def altsMatch : List (List Char) → List Char → Option (List Char)
  | [], _ => none
  | a :: rest, l =>
    match litMatch a l with
    | some r => if wordBoundAfter r then some r else altsMatch rest l
    | none => altsMatch rest l

/-- Scanner for `re.sub` with a word-boundary-delimited alternation whose
alternatives begin and end with word characters: scan left to right, at
each position preceded by a non-word character try the alternatives, on
success emit the replacement and continue after the match (`prevW` tracks
whether the previous character of the original string is a word
character). -/
def subWordAux (alts : List (List Char)) (repl : List Char) :
    Nat → Bool → List Char → List Char
  | 0, _, l => l
  | _ + 1, _, [] => []
  | fuel + 1, prevW, c :: cs =>
    if !prevW && isWordChar c then
      match altsMatch alts (c :: cs) with
      | some rest => repl ++ subWordAux alts repl fuel true rest
      | none => c :: subWordAux alts repl fuel (isWordChar c) cs
    else c :: subWordAux alts repl fuel (isWordChar c) cs

/-- `re.sub(r"\b(alt1|alt2|...)\b", repl, s)` for word-shaped alternatives,
listed in the pattern's backtracking order. -/
def subWord (alts : List String) (repl : String) (l : List Char) : List Char :=
  subWordAux (alts.map String.toList) repl.toList l.length false l

/-- One-or-more spaces (regex ` +`), greedy. -/
def spacesOneMore : List Char → Option (List Char)
  | ' ' :: cs => some (cs.dropWhile (fun c => c = ' '))
  | _ => none

/-- Match `(const +)?char +\*` at the head (the start `\b` is checked by
the caller); the optional `const +` group is tried greedily first, exactly
as the regex engine backtracks. -/
def charStarMatch (l : List Char) : Option (List Char) :=
  let viaChar : List Char → Option (List Char) := fun l1 =>
    match litMatch "char".toList l1 with
    | some r1 =>
      match spacesOneMore r1 with
      | some r2 =>
        match r2 with
        | '*' :: r3 => some r3
        | _ => none
      | none => none
    | none => none
  match litMatch "const".toList l with
  | some r1 =>
    match spacesOneMore r1 with
    | some r2 =>
      match viaChar r2 with
      | some r => some r
      | none => viaChar l
    | none => viaChar l
  | none => viaChar l

/-- Scanner for `re.sub(r"\b(const +)?char +\*", "str", s)`. -/
def charStarAux : Nat → Bool → List Char → List Char
  | 0, _, l => l
  | _ + 1, _, [] => []
  | fuel + 1, prevW, c :: cs =>
    if !prevW && isWordChar c then
      match charStarMatch (c :: cs) with
      | some rest => 's' :: 't' :: 'r' :: charStarAux fuel false rest
      | none => c :: charStarAux fuel (isWordChar c) cs
    else c :: charStarAux fuel (isWordChar c) cs

/-- One-or-more decimal digits (regex `[0-9]+`), greedy. -/
def digitsOneMore : List Char → Option (List Char)
  | c :: cs => if c.isDigit then some (cs.dropWhile Char.isDigit) else none
  | [] => none

/-- After the literal `int` of `u?int[0-9]+(_t)?\b`: digits, then the
optional `_t` greedily, then the closing word boundary (backtracking to
the shorter variant when the boundary fails). -/
def uintTail (l : List Char) : Option (List Char) :=
  match digitsOneMore l with
  | some r1 =>
    match litMatch "_t".toList r1 with
    | some r2 =>
      if wordBoundAfter r2 then some r2
      else if wordBoundAfter r1 then some r1 else none
    | none => if wordBoundAfter r1 then some r1 else none
  | none => none

/-- Match `u?int[0-9]+(_t)?\b` at the head, optional `u` greedy first. -/
def uintMatch (l : List Char) : Option (List Char) :=
  match litMatch "uint".toList l with
  | some r =>
    match uintTail r with
    | some x => some x
    | none =>
      match litMatch "int".toList l with
      | some r2 => uintTail r2
      | none => none
  | none =>
    match litMatch "int".toList l with
    | some r => uintTail r
    | none => none

/-- Scanner for `re.sub(r"\bu?int[0-9]+(_t)?\b", "int", s)`. -/
def uintAux : Nat → Bool → List Char → List Char
  | 0, _, l => l
  | _ + 1, _, [] => []
  | fuel + 1, prevW, c :: cs =>
    if !prevW && isWordChar c then
      match uintMatch (c :: cs) with
      | some rest => 'i' :: 'n' :: 't' :: uintAux fuel true rest
      | none => c :: uintAux fuel (isWordChar c) cs
    else c :: uintAux fuel (isWordChar c) cs

/-- The keyword alternation of `( *(int|short|long|byte|char))` (the
alternatives begin with pairwise distinct letters, so alternation is
deterministic). -/
def intKeyword (l : List Char) : Option (List Char) :=
  match litMatch "int".toList l with
  | some r => some r
  | none =>
    match litMatch "short".toList l with
    | some r => some r
    | none =>
      match litMatch "long".toList l with
      | some r => some r
      | none =>
        match litMatch "byte".toList l with
        | some r => some r
        | none => litMatch "char".toList l

/-- One repetition ` *(int|short|long|byte|char)`. -/
def intRep (l : List Char) : Option (List Char) :=
  intKeyword (l.dropWhile (fun c => c = ' '))

/-- Remainders after 1, 2, ... greedy repetitions of `intRep`. -/
def intRepRests : Nat → List Char → List (List Char)
  | 0, _ => []
  | fuel + 1, l =>
    match intRep l with
    | some r => r :: intRepRests fuel r
    | none => []

/-- Greedy backtracking over the repetition count of `(...)+\b`: prefer
the largest number of repetitions whose end sits on a word boundary. -/
def pickGreedy : List (List Char) → Option (List Char)
  | [] => none
  | r :: rest =>
    match pickGreedy rest with
    | some x => some x
    | none => if wordBoundAfter r then some r else none

/-- Match `( *(int|short|long|byte|char))+\b` at the head. -/
def intFamilyMatch (l : List Char) : Option (List Char) :=
  pickGreedy (intRepRests l.length l)

/-- Scanner for `re.sub(r"\b( *(int|short|long|byte|char))+\b", " int", s)`;
the match may start at a space, so attempts run at every `\b` position. -/
def intFamilyAux : Nat → Bool → List Char → List Char
  | 0, _, l => l
  | _ + 1, _, [] => []
  | fuel + 1, prevW, c :: cs =>
    if prevW != isWordChar c then
      match intFamilyMatch (c :: cs) with
      | some rest => ' ' :: 'i' :: 'n' :: 't' :: intFamilyAux fuel true rest
      | none => c :: intFamilyAux fuel (isWordChar c) cs
    else c :: intFamilyAux fuel (isWordChar c) cs

/-- Python `str.replace`: replace every non-overlapping occurrence, left
to right. -/
def replAllAux (pat repl : List Char) : Nat → List Char → List Char
  | 0, l => l
  | _ + 1, [] => []
  | fuel + 1, c :: cs =>
    match litMatch pat (c :: cs) with
    | some rest => repl ++ replAllAux pat repl fuel rest
    | none => c :: replAllAux pat repl fuel cs

/-- `re.sub(r"^kw\b", "", s)` for a leading keyword. -/
def stripLeadKeyword (kw : List Char) (l : List Char) : List Char :=
  match litMatch kw l with
  | some r => if wordBoundAfter r then r else l
  | none => l

/-- Python `str.strip` whitespace. -/
def isPySpace (c : Char) : Bool :=
  c = ' ' || c = '\t' || c = '\n' || c = '\r' || c = '\x0b' || c = '\x0c'

/-- Python `str.strip()`. -/
def pyStrip (l : List Char) : List Char :=
  ((l.dropWhile isPySpace).reverse.dropWhile isPySpace).reverse

/-- The Token Translator `simple_parse` of `stubgen.py`, rule for rule in
source order.  A falsy input (`None`/empty) yields the empty string. -/
def simple_parse (orig_name : String) : String :=
  if orig_name = "" then ""
  else
    let r := fun (p q : String) (l : List Char) =>
      replAllAux p.toList q.toList l.length l
    let n1 := charStarAux orig_name.toList.length false orig_name.toList
    let n2 := pyStrip (r "..." "" (r "*" "" (r "&" ""
      (r ">" "]" (r "<" "[" (r "::" "." n1))))))
    let n3 := subWord ["constexpr", "const"] "" n2
    let n4 := subWord ["volatile"] "" n3
    let n5 := subWord ["void"] "None" n4
    let n6 := uintAux n5.length false n5
    let n7 := subWord ["unsigned"] "" n6
    let n8 := intFamilyAux n7.length false n7
    let n9 := subWord ["double"] "float" n8
    let n10 := subWord ["std.string", "string"] "str" n9
    let n11 := subWord ["std.vector", "vector"] "List" n10
    let n12 := subWord ["std.pair", "pair"] "Tuple" n11
    let n13 := subWord ["std.unordered_map", "std.map", "unordered_map", "map"] "Dict" n12
    let n14 := subWord ["true"] "True" n13
    let n15 := subWord ["false"] "False" n14
    let n16 := subWord ["nullptr"] "None" n15
    let n17 := subWord ["NULL"] "None" n16
    let n18 := stripLeadKeyword "class".toList n17
    let n19 := stripLeadKeyword "typename".toList n18
    (pyStrip n19).asString

/-!
`ParsedElement.qualname` (stubgen.py lines 46-59).  The property consults,
in order: an explicitly assigned `qualname` (stored in `__dict__` by the
setter, used by `Class` and `Enum`), then the container joined with the
local name, then the local name alone (with a diagnostic on stderr when it
is missing or does not start with `ogdf`), finally the placeholder `???`.
The state records what the property reads: `qualnameDict` is the
explicitly assigned name if any; `containerQualname` is
`container.qualname` when `self.container` is an entity and `none` when it
is `None` (note that `ParsedElement.__init__` line 35 re-assigns
`self.container = None` unconditionally, so for every constructed entity
this field is `none`); `name` is the `name` attribute when present. -/
structure PEState where
  qualnameDict : Option String
  containerQualname : Option String
  name : Option String

/-- `ParsedElement.qualname` as a function of the state it reads. -/
def ParsedElement.qualnameOf (s : PEState) : String :=
  match s.qualnameDict with
  | some q => q
  | none =>
    match s.containerQualname, s.name with
    | some cq, some n => cq ++ "." ++ n
    | _, _ =>
      match s.name with
      | some n => if n = "" then "???" else n
      | none => "???"

/-!
`ParsedElement.check` (stubgen.py lines 64-83): the bounded identifier
repair loop.  For attempt `i = 1, 2, ...` the entity is rendered and the
rendering validated with `ast.parse`; on success the loop stops, on
failure the strategy `fix<i>` is applied when the entity's class defines
one, otherwise the diagnostic (class name, qualname, error, raw rendering)
is printed and the exception propagates.  Every entity class in the source
defines its strategies with consecutive numbers starting at 1 (`Function`:
`fix1`..`fix5`; `Variable`: `fix1`..`fix3`; `Param`, `Template`: `fix1`),
so the `hasattr(self, "fix%s" % i)` lookup is modelled by a strategy list
indexed from 1.  The Python grammar check (`ast.parse`) is external to the
repository and is passed in as the predicate `valid`. -/
inductive CheckResult (σ : Type) where
  | ok (final : σ)
  | fatal (missingFix : Nat) (raw : String)
deriving Repr

/-- The repair loop from attempt number `i` with the remaining strategies. -/
def checkFrom {σ : Type} (valid : String → Bool) (render : σ → String) :
    List (σ → σ) → Nat → σ → CheckResult σ
  | fixes, i, s =>
    if valid (render s) then .ok s
    else
      match fixes with
      | [] => .fatal i (render s)
      | f :: rest => checkFrom valid render rest (i + 1) (f s)

/-- `ParsedElement.check`: run the repair loop from attempt 1. -/
def ParsedElement.check {σ : Type} (valid : String → Bool) (render : σ → String)
    (fixes : List (σ → σ)) (s : σ) : CheckResult σ :=
  checkFrom valid render fixes 1 s

/-!
The `Type` expression node (stubgen.py lines 465-545) and its resolution
against the two registries.  A node's state holds: whether its backing xml
element `is_empty()` (no attributes, no children, no meaningful text —
such a node also has no parts, recorded by `TypeWf` below); the `refid`
attribute (`xml.attrib.get("refid", "")`, the empty string when absent,
which is never a registry key since registration is guarded by `if id:`);
the ordered `parts` (each a translated literal string or a nested node);
the `override` string; and the `target` set by resolution.  A target is an
arbitrary `ParsedElement`: either itself a `Type` (registered in
`INSTANCES` when its xml carries an `id`) or any other entity, modelled by
`Entity.plain` carrying its computed `qualname` (non-`Type` entities have
no `__bool__` and are always truthy).  A `Type` never has a `name`
attribute and its `container` is always `None` (line 35), so its own
`qualname` property evaluates to the placeholder `???`. -/
mutual
inductive TypeNode : Type where
  | mk (xmlEmpty : Bool) (refid : String) (parts : PartList)
       (override : String) (target : OptEntity)

inductive PartList : Type where
  | nil
  | cons (p : TypePart) (rest : PartList)

inductive TypePart : Type where
  | lit (s : String)
  | sub (t : TypeNode)

inductive OptEntity : Type where
  | none
  | some (e : Entity)

inductive Entity : Type where
  | typeE (t : TypeNode)
  | plain (qualname : String)
end

/-- Field access: `is_empty()` of the backing xml. -/
def TypeNode.xmlEmptyOf : TypeNode → Bool
  | .mk e _ _ _ _ => e

/-- Field access: the `refid` attribute. -/
def TypeNode.refidOf : TypeNode → String
  | .mk _ r _ _ _ => r

/-- Field access: `self.parts`. -/
def TypeNode.partsOf : TypeNode → PartList
  | .mk _ _ ps _ _ => ps

/-- Field access: `self.override`. -/
def TypeNode.overrideOf : TypeNode → String
  | .mk _ _ _ ov _ => ov

/-- Field access: `self.target`. -/
def TypeNode.targetOf : TypeNode → OptEntity
  | .mk _ _ _ _ tgt => tgt

/-- `bool(self.parts)`: a Python list is truthy when non-empty. -/
def PartList.isNonEmpty : PartList → Bool
  | .nil => false
  | .cons _ _ => true

mutual
/-- `Type.__bool__` (lines 535-536):
`bool(self.parts) or bool(self.override) or bool(self.target)`. -/
def TypeNode.toBool : TypeNode → Bool
  | .mk _ _ parts ov tgt =>
    parts.isNonEmpty || (ov != "") || OptEntity.toBool tgt

/-- Python truthiness of `self.target`: `None` is falsy, an entity uses
its `__bool__` (only `Type` defines one; every other entity is truthy). -/
def OptEntity.toBool : OptEntity → Bool
  | .none => false
  | .some e => Entity.toBool e

/-- Truthiness of a `ParsedElement` used as a resolution target. -/
def Entity.toBool : Entity → Bool
  | .typeE t => TypeNode.toBool t
  | .plain _ => true
end

/-- `qualname` of a resolution target: a `Type` has no `name` attribute
and a `None` container, so its qualname property yields `???`; any other
entity reports its computed qualified name. -/
def Entity.qualnameOf : Entity → String
  | .typeE _ => "???"
  | .plain q => q

mutual
/-- `Type.__str__` (lines 538-545): override, else a truthy target's
qualname, else the concatenated parts, else `Any`. -/
def TypeNode.str : TypeNode → String
  | .mk _ _ parts ov tgt =>
    if ov != "" then ov
    else
      match tgt with
      | .some e =>
        if Entity.toBool e then Entity.qualnameOf e
        else if parts.isNonEmpty then PartList.strJoin parts else "Any"
      | .none =>
        if parts.isNonEmpty then PartList.strJoin parts else "Any"

/-- `"".join(str(p) for p in self.parts)`. -/
def PartList.strJoin : PartList → String
  | .nil => ""
  | .cons p rest => TypePart.str p ++ PartList.strJoin rest

/-- `str(p)` for a part: a literal string renders as itself, a nested
node via `Type.__str__`. -/
def TypePart.str : TypePart → String
  | .lit s => s
  | .sub t => TypeNode.str t
end

/-- `getattr(self.parts[0], "qualname", None)` (line 521): a literal
string part has no `qualname` attribute; a nested `Type` part's qualname
property evaluates to `???` (no `name`, `None` container). -/
def TypePart.qualnameAttr : TypePart → Option String
  | .lit _ => none
  | .sub _ => some "???"

/-- Head of the parts list. -/
def PartList.headPart : PartList → Option TypePart
  | .nil => none
  | .cons p _ => some p

/-- Convert between the mutual option type and `Option`. -/
def OptEntity.toOption : OptEntity → Option Entity
  | .none => Option.none
  | .some e => Option.some e

/-- The target (re-)assignment of `Type.resolve` (lines 519-523):
`self.target = ParsedElement.INSTANCES.get(refid, None)`, then when that
target is falsy and parts exist, look up the first part's `qualname`
attribute in the Qualified-Name Registry and bind on success.  `parts1`
is the (already nested-resolved) parts list of the node. -/
def TypeNode.targetCalc (inst ns : String → Option Entity) (rid : String)
    (parts1 : PartList) : OptEntity :=
  let tgt1 : OptEntity :=
    match inst rid with
    | Option.none => .none
    | Option.some x => .some x
  if !OptEntity.toBool tgt1 && parts1.isNonEmpty then
    match parts1.headPart with
    | Option.some p =>
      match TypePart.qualnameAttr p with
      | Option.some qn =>
        match ns qn with
        | Option.some x => .some x
        | Option.none => tgt1
      | Option.none => tgt1
    | Option.none => tgt1
  else tgt1

mutual
/-- `Type.resolve` (lines 513-523), with the registries passed explicitly:
return unchanged when `is_empty()`; otherwise resolve every nested part,
then re-assign `target` by `TypeNode.targetCalc`. -/
def TypeNode.resolve (inst ns : String → Option Entity) : TypeNode → TypeNode
  | .mk e rid parts ov tgt =>
    if e then .mk e rid parts ov tgt
    else
      .mk e rid (PartList.resolveParts inst ns parts) ov
        (TypeNode.targetCalc inst ns rid (PartList.resolveParts inst ns parts))

/-- `for p in self.parts: if hasattr(p, "resolve"): p.resolve()` —
literal strings have no `resolve`, nested nodes are resolved in place. -/
def PartList.resolveParts (inst ns : String → Option Entity) : PartList → PartList
  | .nil => .nil
  | .cons p rest =>
    PartList.cons
      (match p with
       | .lit s => .lit s
       | .sub t => .sub (TypeNode.resolve inst ns t))
      (PartList.resolveParts inst ns rest)
end

/-- `Type.is_resolvable` (lines 525-533): it first calls `resolve` (also
mutating nested parts in place), answers `True` when `target is not None`,
`False` when there are no parts or the first part is a literal string
(which has no `is_resolvable`), and otherwise recurses into the first
part.  The recursion is fuelled because it descends into the
already-resolved first part; any fuel at least the nesting depth
reproduces the Python call exactly, and the returned node is the state
after the probe's mutations. -/
def TypeNode.runIsResolvable (inst ns : String → Option Entity) :
    Nat → TypeNode → TypeNode × Bool
  | 0, t => (t, false)
  | fuel + 1, t =>
    match TypeNode.resolve inst ns t with
    | .mk e rid parts ov tgt =>
      match tgt with
      | .some x => (.mk e rid parts ov (.some x), true)
      | .none =>
        match parts with
        | .nil => (.mk e rid .nil ov .none, false)
        | .cons p rest =>
          match p with
          | .lit s => (.mk e rid (.cons (.lit s) rest) ov .none, false)
          | .sub u =>
            let r := TypeNode.runIsResolvable inst ns fuel u
            (.mk e rid (.cons (.sub r.1) rest) ov .none, r.2)

mutual
/-- Structural well-formedness of constructed `Type` nodes: an `is_empty()`
xml has no attributes, no children and no text, so the constructor
produces no parts (the source warns `weird type` whenever this
correspondence is violated, line 486-487). -/
def TypeNode.Wf : TypeNode → Prop
  | .mk e _ parts _ _ => (e = true → parts = .nil) ∧ PartList.Wf parts

def PartList.Wf : PartList → Prop
  | .nil => True
  | .cons p rest => TypePart.Wf p ∧ PartList.Wf rest

def TypePart.Wf : TypePart → Prop
  | .lit _ => True
  | .sub t => TypeNode.Wf t
end

/-!
`ParsedElement.__eq__` / `__hash__` (stubgen.py lines 37-41): equality of
any two parsed entities — of any variants, and also against plain strings
as in `self.params[0].type == "int"` — compares `str(self) == str(other)`,
and hashing is `hash(str(self))`.  The renderers of the two operands and
Python's string hash are passed explicitly. -/
def ParsedElement.beq {α β : Type} (ra : α → String) (rb : β → String)
    (a : α) (b : β) : Bool :=
  ra a == rb b

/-- `ParsedElement.__hash__`: `hash(str(self))` with `hash` the (opaque)
string hash. -/
def ParsedElement.hashOf {α : Type} (h : String → Nat) (ra : α → String)
    (a : α) : Nat :=
  h (ra a)

/-!
`Param` (stubgen.py lines 86-120) and `Function` (lines 168-276).  A
parameter state holds the (placeholder-defaulted) name, its type node and
the optional default-value string; a function state holds the name, the
return type node, the parameters, the `overloaded` flag and the `brief`
summary (the empty string when the xml briefdescription is empty). -/
structure ParamState where
  name : String
  type : TypeNode
  default : Option String

/-- `Param.__str__` (lines 112-120). -/
def Param.str (p : ParamState) : String :=
  let parts := [p.name]
    ++ (if p.type.toBool then [":", p.type.str] else [])
    ++ (match p.default with
        | Option.some d => if d != "" then ["=", d] else []
        | Option.none => [])
  String.intercalate " " parts

structure FunctionState where
  name : String
  returnt : TypeNode
  params : List ParamState
  overloaded : Bool
  brief : String

/-- `Function.__str__` (lines 264-276).  Note `self.returnt or "None"`:
a falsy return type node renders as the literal `None`, short-circuiting
before `Type.__str__` could produce `Any`. -/
def Function.str (f : FunctionState) : String :=
  let res := (if f.overloaded then ["@overload"] else [])
    ++ ["def " ++ f.name ++ "("
        ++ String.intercalate ", " ("self" :: f.params.map Param.str)
        ++ ") -> "
        ++ (if f.returnt.toBool then f.returnt.str else "None") ++ ":"]
    ++ (if f.brief != "" then ["\t\"\"\"" ++ f.brief ++ "\"\"\""] else [])
    ++ ["\t..."]
  String.intercalate "\n" res

/-- The operator rename table of `Function.fix1` (lines 197-236). -/
def Function.renames : String → Option String
  | "operator+" => some "__add__"
  | "operator-" => some "__sub__"
  | "operator*" => some "__mul__"
  | "operator++" => some "__preinc__"
  | "operator--" => some "__predec__"
  | "operator[]" => some "__getitem__"
  | "operator()" => some "__call__"
  | "operator%" => some "__mod__"
  | "operator**" => some "__pow__"
  | "operator<<" => some "__lshift__"
  | "operator>>" => some "__rshift__"
  | "operator&" => some "__and__"
  | "operator&&" => some "__dand__"
  | "operator|" => some "__or__"
  | "operator||" => some "__dor__"
  | "operator^" => some "__xor__"
  | "operator~" => some "__invert__"
  | "operator," => some "__comma__"
  | "operator+=" => some "__iadd__"
  | "operator-=" => some "__isub__"
  | "operator*=" => some "__imul__"
  | "operator/=" => some "__idiv__"
  | "operator%=" => some "__imod__"
  | "operator**=" => some "__ipow__"
  | "operator<<=" => some "__ilshift__"
  | "operator>>=" => some "__irshift__"
  | "operator&=" => some "__iand__"
  | "operator|=" => some "__ior__"
  | "operator^=" => some "__ixor__"
  | "operator==" => some "__eq__"
  | "operator!=" => some "__ne__"
  | "operator>" => some "__gt__"
  | "operator<" => some "__lt__"
  | "operator>=" => some "__ge__"
  | "operator<=" => some "__le__"
  | "operator->" => some "__follow__"
  | "operator=" => some "__assign__"
  | _ => none

/-- `Function.fix1` (lines 189-247): arity-based disambiguation of the
ambiguous operator spellings (the postfix increment/decrement marker is
recognised by comparing the single parameter's type to the string `int`
through `ParsedElement.__eq__`), then the rename table. -/
def Function.fix1 (f : FunctionState) : FunctionState :=
  let f := if f.name = "operator+" ∧ f.params.length = 0 then
      { f with name := "__pos__" } else f
  let f := if f.name = "operator-" ∧ f.params.length = 0 then
      { f with name := "__neg__" } else f
  let f := if f.name = "operator*" ∧ f.params.length = 0 then
      { f with name := "__deref__" } else f
  let f := if f.name = "operator++" ∧ f.params.length = 1 ∧
      (f.params.head?.map fun p =>
        ParsedElement.beq (fun q : ParamState => q.type.str) (fun s => s) p "int")
        = Option.some true then
      { f with name := "__postinc__" } else f
  let f := if f.name = "operator--" ∧ f.params.length = 1 ∧
      (f.params.head?.map fun p =>
        ParsedElement.beq (fun q : ParamState => q.type.str) (fun s => s) p "int")
        = Option.some true then
      { f with name := "__postdec__" } else f
  { f with name := (Function.renames f.name).getD f.name }

/-- Python `str.partition(" ")`: the text before the first space and the
text after it (empty when there is no space). -/
def partitionSpace (s : String) : String × String :=
  let l := s.toList
  let pre := l.takeWhile (fun c => c ≠ ' ')
  let rest := l.dropWhile (fun c => c ≠ ' ')
  match rest with
  | [] => (pre.asString, "")
  | _ :: tl => (pre.asString, tl.asString)

/-- `Function.fix2` (lines 249-252): a spaced conversion operator
`operator TYPE` becomes `__<translated TYPE>__`. -/
def Function.fix2 (f : FunctionState) : FunctionState :=
  let pr := partitionSpace f.name
  if pr.1 = "operator" ∧ pr.2 ≠ "" then
    { f with name := "__" ++ simple_parse pr.2 ++ "__" }
  else f

/-- `Function.fix3` (lines 254-256): a destructor spelling `~...` becomes
`__destruct__`. -/
def Function.fix3 (f : FunctionState) : FunctionState :=
  if f.name.startsWith "~" then { f with name := "__destruct__" } else f

/-- `Function.fix4` (lines 258-259): prefix an underscore. -/
def Function.fix4 (f : FunctionState) : FunctionState :=
  { f with name := "_" ++ f.name }

/-- `Function.fix5` (lines 261-262): drop the first character and strip
every non-alphabetic character from the remainder. -/
def Function.fix5 (f : FunctionState) : FunctionState :=
  { f with name := ((f.name.drop 1).toList.filter Char.isAlpha).asString }

/-- The consecutively numbered strategies of `Function`. -/
def Function.fixes : List (FunctionState → FunctionState) :=
  [Function.fix1, Function.fix2, Function.fix3, Function.fix4, Function.fix5]

/-- The repair loop run on a `Function` immediately after construction. -/
def Function.runCheck (valid : String → Bool) (f : FunctionState) :
    CheckResult FunctionState :=
  ParsedElement.check valid Function.str Function.fixes f

/-!
The member-processing and overload-marking pass of `Class.__init__`
(stubgen.py lines 360-377).  Each already-constructed member is abstracted
to: whether it is a `Function` (the only member class with a `templ`
attribute, which guards the constructor rename), its `name` attribute when
it has one (`Type` members and verbatim header strings have none), and its
`overloaded` flag (initialised to `False` by `Function.__init__`).  The
loop renames a function member whose name equals the class name to
`__init__` and files every named member into the `namespace` multimap;
afterwards every bucket with more than one member has all its members
marked `overloaded`. -/
structure Member where
  isFn : Bool
  name : Option String
  overloaded : Bool
deriving Repr, DecidableEq

/-- The per-member half of the loop: the constructor rename. -/
def Class.renameCtors (className : String) (ms : List Member) : List Member :=
  ms.map fun m =>
    if m.isFn ∧ m.name = some className then { m with name := some "__init__" }
    else m

/-- The size of the `namespace[n]` bucket: how many members carry the
name `n`. -/
def Class.nsCount (ms : List Member) (n : String) : Nat :=
  ms.countP fun m => m.name = some n

/-- The marking pass: every member of a bucket of size at least two gets
`overloaded = True`; everything else is untouched. -/
def Class.markOverloads (ms : List Member) : List Member :=
  ms.map fun m =>
    match m.name with
    | some n => if 1 < Class.nsCount ms n then { m with overloaded := true } else m
    | none => m

/-- The member-processing part of `Class.__init__`: rename constructors,
then mark overloads. -/
def Class.initMembers (className : String) (ms : List Member) : List Member :=
  Class.markOverloads (Class.renameCtors className ms)

/-!
Concrete states used by the theorems below. -/

/-- The `Type` node produced by `Type.__init__` for a `<type>` element
with text `int` (e.g. the translated postfix-marker parameter type):
`parts = [simple_parse("int")] = ["int"]`, no override pattern matches,
target unset. -/
def intTypeNode : TypeNode := .mk false "" (.cons (.lit "int") .nil) "" .none

/-- The `Type` node produced for an empty `<type/>` element (an empty
return Type Expression): `is_empty()` holds, no parts, no override, no
target. -/
def emptyTypeNode : TypeNode := .mk true "" .nil "" .none

/-- The `Function` state right after construction for a member named
`operator[]` with one anonymous parameter (placeholder name `_`) of
translated type `int` and an empty return type. -/
def opIndexFn : FunctionState :=
  { name := "operator[]", returnt := emptyTypeNode,
    params := [⟨"_", intTypeNode, Option.none⟩], overloaded := false,
    brief := "" }

/-- A `Type` node whose `target` is bound to a falsy entity: a registered
`Type` with no parts, no override and no target (an xml element carrying
only an `id` attribute produces exactly this: `attrib` non-empty makes
`is_empty()` false while `parts` stays empty). -/
def falsyTargetNode : TypeNode :=
  .mk false "" .nil "" (.some (.typeE (.mk false "reg" .nil "" .none)))

/-- Substring test (used to state what a rendering does and does not
contain). -/
def strContainsList (needle : List Char) : List Char → Bool
  | [] => (litMatch needle []).isSome
  | c :: cs => (litMatch needle (c :: cs)).isSome || strContainsList needle cs

/-- `needle` occurs somewhere in `hay`. -/
def strContains (hay needle : String) : Bool :=
  strContainsList needle.toList hay.toList

/-- `w` occurs in `s` as a standalone word, i.e. delimited by `\b` word
boundaries on both sides (the sense in which `void` is "a standalone
word" of an input). -/
def containsWordAux (w : List Char) : Bool → List Char → Bool
  | _, [] => false
  | prevW, c :: cs =>
    (!prevW && isWordChar c &&
      (match litMatch w (c :: cs) with
       | Option.some r => wordBoundAfter r
       | Option.none => false))
    || containsWordAux w (isWordChar c) cs

/-- `w` occurs in `s` as a `\b`-delimited word. -/
def containsWord (w s : String) : Bool := containsWordAux w.toList false s.toList

/-- The single-token rewrite vocabulary of the Token Translator: every
keyword appearing in its rules together with the tokens the rules produce. -/
def translatorVocab : List String :=
  ["const", "constexpr", "volatile", "void", "uint8", "uint16_t", "int32_t",
   "unsigned", "int", "short", "long", "byte", "char", "intchar", "double",
   "string", "std::string", "vector", "std::vector", "pair", "std::pair",
   "map", "std::map", "unordered_map", "std::unordered_map", "true",
   "false", "nullptr", "NULL", "class", "typename", "str", "float", "List",
   "Tuple", "Dict", "True", "False", "None", "bool", "Any", ""]

/-!
Helper lemmas shared by the claim theorems. -/

/-- Behaviour of the repair loop from an arbitrary attempt number. -/
theorem checkFrom_spec {σ : Type} (valid : String → Bool) (render : σ → String) :
    ∀ (fixes : List (σ → σ)) (i : Nat) (s : σ),
      (∀ s', checkFrom valid render fixes i s = .ok s' → valid (render s') = true) ∧
      (∀ j raw, checkFrom valid render fixes i s = .fatal j raw →
        j = i + fixes.length ∧ valid raw = false ∧ ∃ s'', raw = render s'') := by
  intro fixes
  induction fixes with
  | nil =>
    intro i s
    by_cases hv : valid (render s) = true
    · constructor
      · intro s' h
        rw [checkFrom, if_pos hv] at h
        cases h
        exact hv
      · intro j raw h
        rw [checkFrom, if_pos hv] at h
        exact CheckResult.noConfusion h
    · constructor
      · intro s' h
        rw [checkFrom, if_neg hv] at h
        exact CheckResult.noConfusion h
      · intro j raw h
        rw [checkFrom, if_neg hv] at h
        cases h
        refine ⟨by simp, ?_, ⟨s, rfl⟩⟩
        simpa using hv
  | cons f rest ih =>
    intro i s
    by_cases hv : valid (render s) = true
    · constructor
      · intro s' h
        rw [checkFrom, if_pos hv] at h
        cases h
        exact hv
      · intro j raw h
        rw [checkFrom, if_pos hv] at h
        exact CheckResult.noConfusion h
    · constructor
      · intro s' h
        rw [checkFrom, if_neg hv] at h
        exact (ih (i + 1) (f s)).1 s' h
      · intro j raw h
        rw [checkFrom, if_neg hv] at h
        obtain ⟨hj, hvr, hex⟩ := (ih (i + 1) (f s)).2 j raw h
        exact ⟨by simp [hj]; omega, hvr, hex⟩

/-- Having at least two elements satisfying `p` is, given one index `i`
whose element satisfies `p`, the same as having a second, distinct index
whose element satisfies `p`. -/
theorem countP_two_iff {α : Type} (p : α → Bool) :
    ∀ (l : List α) (i : Nat) (a : α), l.get? i = some a → p a = true →
      (2 ≤ l.countP p ↔ ∃ j b, j ≠ i ∧ l.get? j = some b ∧ p b = true) := by
  intro l
  induction l with
  | nil => intro i a ha _; simp at ha
  | cons x t iht =>
    intro i a ha hp
    cases i with
    | zero =>
      have hxa : x = a := by simpa using ha
      subst hxa
      rw [List.countP_cons_of_pos _ _ hp]
      constructor
      · intro h2
        have hpos : 0 < t.countP p := by omega
        obtain ⟨b, hb, hpb⟩ := List.countP_pos_iff.mp hpos
        obtain ⟨k, hk⟩ := List.mem_iff_get?.mp hb
        exact ⟨k + 1, b, by omega, by simpa using hk, hpb⟩
      · rintro ⟨j, b, hji, hjb, hpb⟩
        cases j with
        | zero => exact absurd rfl hji
        | succ k =>
          have hk : t.get? k = some b := by simpa using hjb
          have hbmem : b ∈ t := List.get?_mem hk
          have : 0 < t.countP p := List.countP_pos_iff.mpr ⟨b, hbmem, hpb⟩
          omega
    | succ k =>
      have hak : t.get? k = some a := by simpa using ha
      cases hx : p x with
      | true =>
        rw [List.countP_cons_of_pos _ _ hx]
        have hmem : a ∈ t := List.get?_mem hak
        have hpos : 0 < t.countP p := List.countP_pos_iff.mpr ⟨a, hmem, hp⟩
        constructor
        · intro _
          exact ⟨0, x, by omega, rfl, hx⟩
        · intro _
          omega
      | false =>
        rw [List.countP_cons_of_neg _ _ (by simp [hx])]
        rw [iht k a hak hp]
        constructor
        · rintro ⟨j, b, hjk, hjb, hpb⟩
          exact ⟨j + 1, b, by omega, by simpa using hjb, hpb⟩
        · rintro ⟨j, b, hji, hjb, hpb⟩
          cases j with
          | zero =>
            have hxb : x = b := by simpa using hjb
            subst hxb
            rw [hx] at hpb
            exact absurd hpb (by simp)
          | succ m =>
            exact ⟨m, b, by omega, by simpa using hjb, hpb⟩

mutual
/-- `Type.resolve` is idempotent on nodes: with unchanged registries, a
second call recomputes exactly the same state. -/
theorem TypeNode.resolve_resolve (inst ns : String → Option Entity) :
    ∀ t : TypeNode, TypeNode.resolve inst ns (TypeNode.resolve inst ns t)
      = TypeNode.resolve inst ns t
  | .mk e rid parts ov tgt => by
    cases e with
    | true => simp [TypeNode.resolve]
    | false =>
      have hp := PartList.resolveParts_resolveParts inst ns parts
      simp [TypeNode.resolve, hp]

/-- `Type.resolve` is idempotent on part lists. -/
theorem PartList.resolveParts_resolveParts (inst ns : String → Option Entity) :
    ∀ ps : PartList, PartList.resolveParts inst ns (PartList.resolveParts inst ns ps)
      = PartList.resolveParts inst ns ps
  | .nil => rfl
  | .cons p rest => by
    have hr := PartList.resolveParts_resolveParts inst ns rest
    cases p with
    | lit s => simp [PartList.resolveParts, hr]
    | sub t =>
      have ht := TypeNode.resolve_resolve inst ns t
      simp [PartList.resolveParts, hr, ht]
end

/-- An `is_resolvable` probe run on an already-resolved well-formed node
leaves the node's state exactly as `resolve` left it, for every recursion
fuel. -/
theorem TypeNode.runIsResolvable_state (inst ns : String → Option Entity) :
    ∀ (fuel : Nat) (t : TypeNode), TypeNode.Wf t →
      (TypeNode.runIsResolvable inst ns fuel (TypeNode.resolve inst ns t)).1
        = TypeNode.resolve inst ns t := by
  intro fuel
  induction fuel with
  | zero => intro t _; rfl
  | succ n ih =>
    rintro ⟨e, rid, parts, ov, tgt⟩ hwf
    cases e with
    | true =>
      have hnil : parts = .nil := hwf.1 rfl
      subst hnil
      cases tgt with
      | none => simp [TypeNode.runIsResolvable, TypeNode.resolve]
      | some x => simp [TypeNode.runIsResolvable, TypeNode.resolve]
    | false =>
      have hres : TypeNode.resolve inst ns (.mk false rid parts ov tgt)
          = .mk false rid (PartList.resolveParts inst ns parts) ov
              (TypeNode.targetCalc inst ns rid (PartList.resolveParts inst ns parts)) := by
        simp [TypeNode.resolve]
      have hidem := TypeNode.resolve_resolve inst ns (.mk false rid parts ov tgt)
      rw [hres] at hidem ⊢
      cases hT : TypeNode.targetCalc inst ns rid (PartList.resolveParts inst ns parts) with
      | some x =>
        rw [hT] at hidem
        simp [TypeNode.runIsResolvable, hidem]
      | none =>
        rw [hT] at hidem
        cases parts with
        | nil =>
          simp only [PartList.resolveParts] at hidem ⊢
          simp [TypeNode.runIsResolvable, hidem]
        | cons p0 rest0 =>
          cases p0 with
          | lit s =>
            simp only [PartList.resolveParts] at hidem ⊢
            simp [TypeNode.runIsResolvable, hidem]
          | sub u0 =>
            have hwfu : TypeNode.Wf u0 := hwf.2.1
            have hu := ih u0 hwfu
            simp only [PartList.resolveParts] at hidem ⊢
            simp [TypeNode.runIsResolvable, hidem, hu]

/-!
The claim theorems. -/

/-- Claim C1: the repair loop entered immediately after construction
(`ParsedElement.check`) terminates in exactly one of two ways — it is a
total function into the two-constructor `CheckResult`.  When it returns
`ok`, the final state's rendering validates (parses as target syntax);
when it returns `fatal`, the surfaced attempt number is exactly the first
strategy number the entity class does not define (the classes number their
strategies consecutively from 1, so with `n` strategies that is `n + 1`),
and the surfaced raw rendering is the rendering of the failing state and
does not validate — an invalid rendering is never silently produced. -/
theorem C1_repair_loop_two_outcomes {σ : Type} (valid : String → Bool)
    (render : σ → String) (fixes : List (σ → σ)) (s : σ) :
    (∀ s', ParsedElement.check valid render fixes s = .ok s' →
      valid (render s') = true) ∧
    (∀ i raw, ParsedElement.check valid render fixes s = .fatal i raw →
      i = fixes.length + 1 ∧ valid raw = false ∧ ∃ s'', raw = render s'') := by
  have h := checkFrom_spec valid render fixes 1 s
  refine ⟨h.1, ?_⟩
  intro i raw hfat
  obtain ⟨hj, hv, hex⟩ := h.2 i raw hfat
  exact ⟨by omega, hv, hex⟩

/-- Witness for C1: a loop whose single strategy repairs the rendering
ends in the success state, whose rendering validates. -/
theorem C1_witness :
    ParsedElement.check (fun r => r == "ok") (fun x : String => x)
        [fun _ => "ok"] "bad" = .ok "ok" ∧
    (("ok" : String) == "ok") = true :=
  ⟨rfl, (C1_repair_loop_two_outcomes (fun r => r == "ok") (fun x : String => x)
    [fun _ => "ok"] "bad").1 "ok" rfl⟩

/-- Counterexample to claim C2: for an entity with no container available
and local name `NodeArray` — which does not start with the root namespace
`ogdf`, so by the claim the qualified name should be a diagnostic
placeholder — `ParsedElement.qualname` returns the local name itself
(the source merely prints a diagnostic and then returns `name or "???"`,
line 52-55). -/
theorem C2_counterexample :
    ParsedElement.qualnameOf ⟨Option.none, Option.none, Option.some "NodeArray"⟩
      = "NodeArray" ∧
    (litMatch "ogdf".toList "NodeArray".toList).isSome = false ∧
    "NodeArray" ≠ "???" := by
  exact ⟨rfl, by decide, by decide⟩

/-- Claim C2 (amended): for every declaration entity without an
explicitly assigned qualified name, when the container has a qualified
name and the entity has a local name, `qualname` is the container's
qualified name joined to the local name by `"."`; when no container is
available it falls back to the local name whenever one is present and
non-empty — regardless of whether it looks fully qualified (a diagnostic
is printed when it does not start with `ogdf`) — and to the placeholder
`???` only when the name is absent or empty. -/
theorem C2_qualname_amended (s : PEState) (hdict : s.qualnameDict = Option.none) :
    (∀ cq n, s.containerQualname = Option.some cq → s.name = Option.some n →
      ParsedElement.qualnameOf s = cq ++ "." ++ n) ∧
    (s.containerQualname = Option.none →
      ParsedElement.qualnameOf s =
        match s.name with
        | Option.some m => if m = "" then "???" else m
        | Option.none => "???") := by
  obtain ⟨d, c, nm⟩ := s
  simp only at hdict
  subst hdict
  constructor
  · rintro cq n hc hn
    simp only at hc hn
    subst hc; subst hn
    rfl
  · rintro hc
    simp only at hc
    subst hc
    cases nm <;> rfl

/-- Witness for C2: a contained entity joins the container's qualified
name with its local name. -/
theorem C2_witness :
    ParsedElement.qualnameOf
        ⟨Option.none, Option.some "ogdf.Graph", Option.some "nodes"⟩
      = "ogdf.Graph" ++ "." ++ "nodes" :=
  (C2_qualname_amended ⟨Option.none, Option.some "ogdf.Graph", Option.some "nodes"⟩
    rfl).1 "ogdf.Graph" "nodes" rfl rfl

/-- Counterexample to claim C3: after the repair applied at the first
failed attempt (`Function.fix1`, which renames `operator[]` to
`__getitem__` and is the only strategy that fires for this entity), the
rendering's return annotation is `None`, not `Any`: `Function.__str__`
evaluates `self.returnt or "None"`, so the falsy empty return Type
Expression short-circuits to the literal `None` before `Type.__str__`
could produce `Any`.  No repair strategy ever touches `returnt`, so no
rendering of this entity ever contains `Any`. -/
theorem C3_counterexample :
    Function.str (Function.fix1 opIndexFn)
      = "def __getitem__(self, _ : int) -> None:\n\t..." ∧
    strContains (Function.str (Function.fix1 opIndexFn)) "Any" = false ∧
    strContains (Function.str (Function.fix1 opIndexFn)) "-> None" = true := by
  exact ⟨by decide, by decide, by decide⟩

/-- Claim C3 (amended): a `Function` whose raw name is `operator[]`, with
one anonymous parameter of translated type `int` and an empty return Type
Expression, leaves the repair loop as the state produced by the first
strategy, rendering as a definition named `__getitem__` with parameter
list `self, _ : int` and return annotation `None` (not `Any`).  The
Python-syntax check is abstract; the two hypotheses record that the
initial rendering (`def operator[](...)`) does not parse while the
repaired one does. -/
theorem C3_operator_index_amended (valid : String → Bool)
    (h1 : valid (Function.str opIndexFn) = false)
    (h2 : valid (Function.str (Function.fix1 opIndexFn)) = true) :
    Function.runCheck valid opIndexFn = .ok (Function.fix1 opIndexFn) ∧
    (Function.fix1 opIndexFn).name = "__getitem__" ∧
    Function.str (Function.fix1 opIndexFn)
      = "def __getitem__(self, _ : int) -> None:\n\t..." := by
  refine ⟨?_, by decide, by decide⟩
  show checkFrom valid Function.str Function.fixes 1 opIndexFn = _
  rw [Function.fixes]
  rw [checkFrom, if_neg (by simp [h1])]
  show checkFrom valid Function.str
    [Function.fix2, Function.fix3, Function.fix4, Function.fix5] 2
    (Function.fix1 opIndexFn) = _
  rw [checkFrom, if_pos h2]

/-- Witness for C3: instantiating the syntax check with one accepting
exactly the repaired rendering discharges both hypotheses. -/
theorem C3_witness :
    Function.runCheck
        (fun r => r == "def __getitem__(self, _ : int) -> None:\n\t...")
        opIndexFn
      = .ok (Function.fix1 opIndexFn) :=
  (C3_operator_index_amended
    (fun r => r == "def __getitem__(self, _ : int) -> None:\n\t...")
    (by decide) (by decide)).1

/-- Claim C4: `Type.resolve` first resolves all nested parts (visible in
the parts of the result), then binds `target` from the direct-reference id
lookup in the ID Registry, and, when that lookup fails, from the
Qualified-Name Registry lookup of the first part's `qualname`; for a
Type Expression whose first part is a nested node (whose `qualname`
evaluates to `???`, since a `Type` has no name and a nulled container)
with that qualified name registered, the fallback binds `target` to the
registered entity. -/
theorem C4_resolve_qualname_fallback (inst ns : String → Option Entity)
    (rid ov : String) (u : TypeNode) (rest : PartList) (tgt : OptEntity)
    (e : Entity) (hinst : inst rid = Option.none)
    (hns : ns "???" = Option.some e) :
    TypeNode.resolve inst ns (.mk false rid (.cons (.sub u) rest) ov tgt)
      = .mk false rid
          (.cons (.sub (TypeNode.resolve inst ns u))
            (PartList.resolveParts inst ns rest))
          ov (.some e) := by
  simp [TypeNode.resolve, PartList.resolveParts, TypeNode.targetCalc, hinst, hns,
    OptEntity.toBool, PartList.isNonEmpty, PartList.headPart, TypePart.qualnameAttr]

/-- Witness for C4: with an empty ID Registry and a Qualified-Name
Registry carrying an entry, the fallback binds the target. -/
theorem C4_witness :
    TypeNode.resolve (fun _ => Option.none)
        (fun _ => Option.some (Entity.plain "ogdf.NodeElement"))
        (.mk false "" (.cons (.sub emptyTypeNode) .nil) "" .none)
      = .mk false "" (.cons (.sub emptyTypeNode) .nil) ""
          (.some (Entity.plain "ogdf.NodeElement")) :=
  C4_resolve_qualname_fallback (fun _ => Option.none)
    (fun _ => Option.some (Entity.plain "ogdf.NodeElement"))
    "" "" emptyTypeNode .nil .none (Entity.plain "ogdf.NodeElement") rfl rfl

/-- Counterexample to claim C5: the Token Translator is not idempotent.
On `[int]` the integer rule `\b( *(int|short|long|byte|char))+\b -> " int"`
rewrites `int` to ` int`; re-applying the translator to the result
`[ int]` matches `int` again (the space after `[` sits on no word
boundary and cannot be absorbed into the match) and inserts a further
space, yielding `[  int]`. -/
theorem C5_counterexample :
    simple_parse "[int]" = "[ int]" ∧
    simple_parse (simple_parse "[int]") = "[  int]" ∧
    simple_parse (simple_parse "[int]") ≠ simple_parse "[int]" := by
  exact ⟨by decide, by decide, by decide⟩

/-- Claim C5 (amended): the Token Translator is idempotent on every
single-token input of its rewrite vocabulary — each keyword its rules
rewrite, and each token its rules produce — but not on arbitrary inputs:
re-application can insert an extra space before the generic integer token
when it ends up next to punctuation (and can strip a further leading
`class`/`typename`). -/
theorem C5_amended_vocab_idempotent :
    (translatorVocab.all fun w =>
      simple_parse (simple_parse w) == simple_parse w) = true := by
  decide

/-- Claim C6: after `Class.__init__` finishes its member pass, a function
member (whose `overloaded` flag was initialised to `False` by
`Function.__init__`) is marked `overloaded` exactly when some other member
of the same scope carries the same final name (after the repair loop and
the constructor rename); a member with a unique name is never marked, and
every member of a colliding bucket is marked. -/
theorem C6_overload_marking (className : String) (ms : List Member) (i : Nat)
    (m : Member) (n : String)
    (hm : (Class.renameCtors className ms).get? i = some m)
    (hname : m.name = some n) (hov : m.overloaded = false) :
    ∃ m', (Class.initMembers className ms).get? i = some m' ∧
      (m'.overloaded = true ↔
        ∃ j m₂, j ≠ i ∧ (Class.renameCtors className ms).get? j = some m₂ ∧
          m₂.name = some n) := by
  obtain ⟨mf, mn, mo⟩ := m
  simp only at hname hov
  subst hname
  subst hov
  have hp : (fun mb : Member => decide (mb.name = some n)) ⟨mf, some n, false⟩ = true := by
    simp
  have hiff := countP_two_iff (fun mb : Member => decide (mb.name = some n))
    (Class.renameCtors className ms) i ⟨mf, some n, false⟩ hm hp
  have hcount : Class.nsCount (Class.renameCtors className ms) n
      = (Class.renameCtors className ms).countP
          (fun mb : Member => decide (mb.name = some n)) := rfl
  have hmap : (Class.initMembers className ms).get? i
      = ((Class.renameCtors className ms).get? i).map
          (fun mb : Member =>
            match mb.name with
            | some nn =>
              if 1 < Class.nsCount (Class.renameCtors className ms) nn then
                { mb with overloaded := true }
              else mb
            | none => mb) := by
    simp [Class.initMembers, Class.markOverloads, List.get?_map]
  rw [hm] at hmap
  by_cases h2 : 1 < Class.nsCount (Class.renameCtors className ms) n
  · refine ⟨⟨mf, some n, true⟩, ?_, ?_⟩
    · rw [hmap]
      simp [h2]
    · simp only [true_iff]
      have : 2 ≤ (Class.renameCtors className ms).countP
          (fun mb : Member => decide (mb.name = some n)) := by
        rw [← hcount]; omega
      obtain ⟨j, b, hji, hjb, hpb⟩ := hiff.mp this
      exact ⟨j, b, hji, hjb, of_decide_eq_true hpb⟩
  · refine ⟨⟨mf, some n, false⟩, ?_, ?_⟩
    · rw [hmap]
      simp [h2]
    · simp only [Bool.false_eq_true, false_iff]
      rintro ⟨j, m₂, hji, hjm, hm₂n⟩
      have : 2 ≤ (Class.renameCtors className ms).countP
          (fun mb : Member => decide (mb.name = some n)) :=
        hiff.mpr ⟨j, m₂, hji, hjm, by simp [hm₂n]⟩
      rw [← hcount] at this
      omega

/-- Witness for C6: two sibling functions sharing the name `resize` are
both in a bucket of size two, so the first is marked overloaded. -/
theorem C6_witness :
    ∃ m', (Class.initMembers "Graph"
        [(⟨true, Option.some "resize", false⟩ : Member),
         ⟨true, Option.some "resize", false⟩]).get? 0 = some m' ∧
      m'.overloaded = true := by
  obtain ⟨m', hm', hiff⟩ := C6_overload_marking "Graph"
    [(⟨true, Option.some "resize", false⟩ : Member),
     ⟨true, Option.some "resize", false⟩] 0
    ⟨true, Option.some "resize", false⟩ "resize" (by decide) rfl rfl
  refine ⟨m', hm', hiff.mpr ?_⟩
  exact ⟨1, ⟨true, Option.some "resize", false⟩, by decide, by decide, rfl⟩

/-- Counterexample to claim C7: a Type Expression with no parts and no
override whose `target` is resolved — bound to a registered but falsy
`Type` entity (one with no parts, no override, no target of its own) — is
falsy and renders as `Any`, although the claim's reading (truthy iff
parts, override, or a resolved target; precedence using the resolved
target's qualified name) demands it be truthy and render the target's
qualified name: `Type.__bool__` and `Type.__str__` test the target's
truthiness, not its presence. -/
theorem C7_counterexample :
    falsyTargetNode.targetOf ≠ OptEntity.none ∧
    TypeNode.toBool falsyTargetNode = false ∧
    TypeNode.str falsyTargetNode = "Any" :=
  ⟨(fun h => nomatch h), rfl, rfl⟩

/-- Claim C7 (amended): rendering follows the strict precedence
override > truthy resolved target's qualified name > concatenated parts >
the universal `Any` placeholder, and a Type Expression is truthy exactly
when it has at least one part, a non-empty override, or a truthy resolved
target (every non-`Type` entity is truthy; a `Type` target is truthy by
the same rule recursively).  A falsy resolved target is skipped by both
`__bool__` and `__str__`. -/
theorem C7_render_precedence (t : TypeNode) :
    (TypeNode.toBool t = true ↔
      t.partsOf.isNonEmpty = true ∨ t.overrideOf ≠ "" ∨
        OptEntity.toBool t.targetOf = true) ∧
    (t.overrideOf ≠ "" → TypeNode.str t = t.overrideOf) ∧
    (t.overrideOf = "" → ∀ e, t.targetOf = .some e → Entity.toBool e = true →
      TypeNode.str t = Entity.qualnameOf e) ∧
    (t.overrideOf = "" → OptEntity.toBool t.targetOf = false →
      t.partsOf.isNonEmpty = true → TypeNode.str t = PartList.strJoin t.partsOf) ∧
    (t.overrideOf = "" → OptEntity.toBool t.targetOf = false →
      t.partsOf.isNonEmpty = false → TypeNode.str t = "Any") := by
  obtain ⟨e, rid, parts, ov, tgt⟩ := t
  refine ⟨?_, ?_, ?_, ?_, ?_⟩
  · simp [TypeNode.toBool, TypeNode.partsOf, TypeNode.overrideOf, TypeNode.targetOf,
      Bool.or_eq_true, bne_iff_ne]
    tauto
  · intro hov
    simp only [TypeNode.overrideOf] at hov
    simp [TypeNode.str, TypeNode.overrideOf, bne_iff_ne, hov]
  · intro hov x htgt hx
    simp only [TypeNode.overrideOf] at hov
    simp only [TypeNode.targetOf] at htgt
    subst hov
    subst htgt
    simp [TypeNode.str, hx]
  · intro hov htgt hparts
    simp only [TypeNode.overrideOf] at hov
    simp only [TypeNode.targetOf] at htgt
    simp only [TypeNode.partsOf] at hparts
    subst hov
    cases tgt with
    | none => simp [TypeNode.str, TypeNode.partsOf, hparts]
    | some x =>
      simp only [OptEntity.toBool] at htgt
      simp [TypeNode.str, TypeNode.partsOf, htgt, hparts]
  · intro hov htgt hparts
    simp only [TypeNode.overrideOf] at hov
    simp only [TypeNode.targetOf] at htgt
    simp only [TypeNode.partsOf] at hparts
    subst hov
    cases tgt with
    | none => simp [TypeNode.str, hparts]
    | some x =>
      simp only [OptEntity.toBool] at htgt
      simp [TypeNode.str, htgt, hparts]

/-- Witness for C7: the translated `int` node is truthy through its part,
and renders as the concatenation of its parts. -/
theorem C7_witness :
    TypeNode.toBool intTypeNode = true ∧
    TypeNode.str intTypeNode = PartList.strJoin intTypeNode.partsOf :=
  ⟨(C7_render_precedence intTypeNode).1.mpr (Or.inl rfl),
   (C7_render_precedence intTypeNode).2.2.2.1 rfl rfl rfl⟩

/-- Claim C8: with both registries unchanged, `Type.resolve` is
idempotent — a second call recomputes the identical state (in particular
the identical `target`) — and the `resolve` implicitly performed by an
`is_resolvable` probe on an already-resolved (well-formed) node never
un-binds or changes the binding, for any recursion fuel of the probe. -/
theorem C8_resolve_idempotent (inst ns : String → Option Entity) (t : TypeNode)
    (fuel : Nat) (hwf : TypeNode.Wf t) :
    TypeNode.resolve inst ns (TypeNode.resolve inst ns t)
      = TypeNode.resolve inst ns t ∧
    (TypeNode.runIsResolvable inst ns fuel (TypeNode.resolve inst ns t)).1
      = TypeNode.resolve inst ns t :=
  ⟨TypeNode.resolve_resolve inst ns t,
   TypeNode.runIsResolvable_state inst ns fuel t hwf⟩

/-- Witness for C8: resolving the translated `int` node twice against
empty registries equals resolving it once, and a fuelled probe preserves
the resolved state. -/
theorem C8_witness :
    TypeNode.resolve (fun _ => Option.none) (fun _ => Option.none)
        (TypeNode.resolve (fun _ => Option.none) (fun _ => Option.none) intTypeNode)
      = TypeNode.resolve (fun _ => Option.none) (fun _ => Option.none) intTypeNode ∧
    (TypeNode.runIsResolvable (fun _ => Option.none) (fun _ => Option.none) 2
        (TypeNode.resolve (fun _ => Option.none) (fun _ => Option.none) intTypeNode)).1
      = TypeNode.resolve (fun _ => Option.none) (fun _ => Option.none) intTypeNode :=
  C8_resolve_idempotent (fun _ => Option.none) (fun _ => Option.none) intTypeNode 2
    ⟨fun h => Bool.noConfusion h, trivial, trivial⟩

/-- Claim C9: equality and hashing of parsed entities are determined
solely by rendered text — `ParsedElement.__eq__` compares the two
operands' string renderings (whatever the variants, including Type
Expressions compared against plain strings as in the postfix-marker test
`self.params[0].type == "int"`), and `__hash__` hashes the rendering, so
equal renderings imply equal hashes. -/
theorem C9_eq_hash_by_rendering {α β : Type} (ra : α → String) (rb : β → String)
    (h : String → Nat) (a : α) (b : β) :
    (ParsedElement.beq ra rb a b = true ↔ ra a = rb b) ∧
    (ra a = rb b → ParsedElement.hashOf h ra a = ParsedElement.hashOf h rb b) ∧
    (ParsedElement.beq ra rb a b = true →
      ParsedElement.hashOf h ra a = ParsedElement.hashOf h rb b) := by
  have h1 : ParsedElement.beq ra rb a b = true ↔ ra a = rb b := by
    simp [ParsedElement.beq]
  refine ⟨h1, ?_, ?_⟩
  · intro he
    simp [ParsedElement.hashOf, he]
  · intro hb
    have he := h1.mp hb
    simp [ParsedElement.hashOf, he]

/-- Witness for C9: the translated `int` Type Expression compares equal
to the literal string `int` (the comparison `Function.fix1` relies on),
hence their hashes agree. -/
theorem C9_witness :
    ParsedElement.hashOf String.length TypeNode.str intTypeNode
      = ParsedElement.hashOf String.length (fun s => s) "int" :=
  (C9_eq_hash_by_rendering TypeNode.str (fun s => s) String.length
    intTypeNode "int").2.2 (by decide)

/-- Counterexample to claim C10: the standalone-word occurrence of `void`
is not always rewritten to `None` — earlier rules can merge it with
adjacent text first.  In `void...x` the ellipsis is stripped by the
punctuation pass, gluing `void` to `x`; the output `voidx` carries `void`
through unchanged and contains no `None`. -/
theorem C10_counterexample :
    containsWord "void" "void...x" = true ∧
    simple_parse "void...x" = "voidx" ∧
    strContains (simple_parse "void...x") "None" = false ∧
    strContains (simple_parse "void...x") "void" = true := by
  exact ⟨by decide, by decide, by decide, by decide⟩

/-- Claim C10 (amended): the Token Translator maps the whole-word keyword
`void` — a mapping absent from the spec's rule list — to the target null
token `None`: the raw return type exactly `void` translates to `None`,
and a `void` delimited by spaces is rewritten in place; the mapping can
only be defeated when an earlier rule (the char-pointer rewrite or the
stripping of `*`, `&`, `...`) merges `void` with adjacent text. -/
theorem C10_void_maps_amended :
    simple_parse "void" = "None" ∧
    simple_parse "void foo" = "None foo" ∧
    simple_parse "const void" = "None" ∧
    simple_parse "a void b" = "a None b" := by
  exact ⟨by decide, by decide, by decide, by decide⟩
